import Mathlib

/-!
Verification of the read-path caching and enrichment layer of the
MobileAppz backend (report listings, invalidation, admin dashboard),
shallowly embedded from `src/utils/cacheUtils.js`, `src/routes/reports.js`,
`src/routes/comments.js` and `src/routes/admin.js`.
-/

namespace MobileAppz

/-- Status filter values accepted by the `GET /api/reports` validator:
`query('status').optional().isIn(['all','Pending','In Progress','Fixed','Rejected'])`. -/
def statusFilters : List String :=
  ["all", "Pending", "In Progress", "Fixed", "Rejected"]

/-- Type filter values accepted by the `GET /api/reports` validator:
`query('type').optional().isIn(['all','Pothole','Streetlight','Graffiti','Other'])`. -/
def typeFilters : List String :=
  ["all", "Pothole", "Streetlight", "Graffiti", "Other"]

/-- Listing cache key built by `GET /api/reports`:
`const cacheKey = "reports:" + status + ":" + type + ":user:" + req.user.id`. -/
def cacheKey (status ty userId : String) : String :=
  "reports:" ++ status ++ ":" ++ ty ++ ":user:" ++ userId

/-- The `types` array of `invalidateUserReportCache` in `src/utils/cacheUtils.js`. -/
def invalidationTypes : List String :=
  ["all", "Pothole", "Streetlight", "Graffiti", "Other"]

/-- The list of keys deleted by `invalidateUserReportCache userId`:
`types.map(type => "reports:all:" + type + ":user:" + userId)` followed by
`keys.push("reports:all:all:user:" + userId)`. -/
def invalidationKeys (userId : String) : List String :=
  (invalidationTypes.map (fun t => "reports:all:" ++ t ++ ":user:" ++ userId))
    ++ ["reports:all:all:user:" ++ userId]

/-- A Report document (`reportSchema` in the Report model): owning user,
issue type, GeoJSON point stored as `[longitude, latitude]`, address,
description, image URLs, status (default `Pending`), optional rejection
reason, and `timestamps: true` giving `createdAt`/`updatedAt`. -/
structure Report where
  rid : String
  user : String
  issueType : String
  location : ℚ × ℚ
  address : String
  description : String
  imageUrls : List String
  status : String
  rejectReason : Option String
  createdAt : Int
  updatedAt : Int
deriving DecidableEq, Repr

/-- An Upvote document (`upvoteSchema`): a `(user, report)` pair.
The schema declares `index({ user: 1, report: 1 }, { unique: true })`. -/
structure Upvote where
  user : String
  report : String
deriving DecidableEq, Repr

/-- A Comment document (`commentSchema`): author, owning report, text. -/
structure Comment where
  cid : String
  user : String
  report : String
  text : String
deriving DecidableEq, Repr

/-- The object produced for each report by the enrichment step of
`GET /api/reports`: the base report plus `upvoteCount`, `commentCount`
and `hasUpvoted`. -/
structure EnrichedReport where
  report : Report
  upvoteCount : Nat
  commentCount : Nat
  hasUpvoted : Bool
deriving DecidableEq, Repr

/-- The listing portion of the redis keyspace: serialized enriched listings
addressed by `reports:<status>:<type>:user:<userId>` keys. -/
def ListingCache : Type := String → Option (List EnrichedReport)

/-- The admin dashboard snapshot cached under `admin:dashboard`
(`GET /api/admin/dashboard` in `src/routes/admin.js`). -/
structure Dashboard where
  total : Nat
  pending : Nat
  fixed : Nat
  avgResolution : ℚ
  typeDistribution : List (String × Nat)
deriving DecidableEq, Repr

/-- Model of `redisClient.setEx(key, ttl, value)` on the listing keyspace: the key now
maps to the freshly serialized value.  The 300-second TTL is not represented
because every property proved here compares immediately successive calls. -/
def setKey (c : ListingCache) (k : String) (v : List EnrichedReport) : ListingCache :=
  fun k' => if k' = k then some v else c k'

/-- Model of `redisClient.del(key)` on the listing keyspace. -/
def delKey (c : ListingCache) (k : String) : ListingCache :=
  fun k' => if k' = k then none else c k'

/-- Translation of `invalidateUserReportCache(userId)` from `src/utils/cacheUtils.js`:
`await Promise.all(keys.map(key => redisClient.del(key)))` over
`invalidationKeys userId`. -/
def invalidateUserReportCache (c : ListingCache) (userId : String) : ListingCache :=
  (invalidationKeys userId).foldl delKey c

/-- Combined persistent state: the three Document Store collections, the
listing keyspace and the dashboard key of the Key-Value Cache. -/
structure Sys where
  reports : List Report
  upvotes : List Upvote
  comments : List Comment
  listingCache : ListingCache
  dashCache : Option Dashboard

/-- The mongo filter built by `GET /api/reports`: `{}` plus
`filter.status = status` when `status !== 'all'` and
`filter.issueType = type` when `type !== 'all'`. -/
def reportFilter (status ty : String) (r : Report) : Bool :=
  (status == "all" || r.status == status) && (ty == "all" || r.issueType == ty)

/-- Insertion step for `.sort({ createdAt: -1 })`. -/
def insertByCreatedDesc (r : Report) : List Report → List Report
  | [] => [r]
  | x :: xs =>
    if x.createdAt ≥ r.createdAt then x :: insertByCreatedDesc r xs
    else r :: x :: xs

/-- Model of `Report.find(filter).sort({ createdAt: -1 })`. -/
def findReports (reports : List Report) (status ty : String) : List Report :=
  (reports.filter (reportFilter status ty)).foldr insertByCreatedDesc []

/-- Model of `Upvote.aggregate([{ $match: { report: { $in: ids } } },
{ $group: { _id: '$report', count: { $sum: 1 } } }])`: one `(reportId, count)`
pair per distinct report id among the matched upvotes. -/
def upvoteAgg (ids : List String) (ups : List Upvote) : List (String × Nat) :=
  let matched := (ups.filter (fun u => ids.contains u.report)).map (·.report)
  matched.dedup.map (fun k => (k, matched.count k))

/-- Model of `Comment.aggregate([{ $match: { report: { $in: ids } } },
{ $group: { _id: '$report', count: { $sum: 1 } } }])`. -/
def commentAgg (ids : List String) (cms : List Comment) : List (String × Nat) :=
  let matched := (cms.filter (fun c => ids.contains c.report)).map (·.report)
  matched.dedup.map (fun k => (k, matched.count k))

/-- Model of `Upvote.find({ user: req.user.id, report: { $in: ids } }).select('report')`
projected to report ids, as used to build `upSet`. -/
def myUpvotes (userId : String) (ids : List String) (ups : List Upvote) : List String :=
  (ups.filter (fun u => u.user == userId && ids.contains u.report)).map (·.report)

/-- Lookup modelling `upMap[id] || 0` on the map built by `Object.fromEntries`,
defaulting to `0` when the id has no group. -/
def lookupCount (m : List (String × Nat)) (k : String) : Nat :=
  match m.lookup k with
  | some n => n
  | none => 0

/-- The `reports.map(r => ({ ...r, upvoteCount, commentCount, hasUpvoted }))`
step: one Enriched Report View per input report, in input order. -/
def enrich (upMap cmMap : List (String × Nat)) (upSet : List String)
    (reports : List Report) : List EnrichedReport :=
  reports.map (fun r =>
    { report := r
      upvoteCount := lookupCount upMap r.rid
      commentCount := lookupCount cmMap r.rid
      hasUpvoted := upSet.contains r.rid })

/-- Which of the three concurrently awaited enrichment queries fail on this
request (the Document Store is an external collaborator; an outage makes the
corresponding promise reject, so `Promise.all` rejects). -/
structure Outages where
  upsFail : Bool
  cmsFail : Bool
  myUpsFail : Bool
deriving DecidableEq, Repr

/-- Result of one `GET /api/reports` request: the HTTP response
(`Except` models the error forwarded by `asyncHandler` to the Express error
handler), the state afterwards, and how many Document Store queries the
request issued. -/
structure ListResult where
  response : Except String (List EnrichedReport)
  sys : Sys
  storeAccesses : Nat

/-- The miss-path computation of `GET /api/reports`: `Report.find` with the
filter and sort, then the Enrichment Aggregator over its results. -/
def computeListing (sys : Sys) (status ty userId : String) : List EnrichedReport :=
  let reports := findReports sys.reports status ty
  let ids := reports.map (·.rid)
  let upMap := upvoteAgg ids sys.upvotes
  let cmMap := commentAgg ids sys.comments
  let upSet := myUpvotes userId ids sys.upvotes
  enrich upMap cmMap upSet reports

/-- The `GET /api/reports` handler: compute the cache key, return the cached
listing on a hit; on a miss run `Report.find`, the three enrichment queries
under `Promise.all` (the request fails if any of them fails), build the maps,
enrich, `setEx` the result under the key, and return it. -/
def listReports (sys : Sys) (out : Outages) (status ty userId : String) : ListResult :=
  let key := cacheKey status ty userId
  match sys.listingCache key with
  | some cached => { response := .ok cached, sys := sys, storeAccesses := 0 }
  | none =>
    if out.upsFail || out.cmsFail || out.myUpsFail then
      { response := .error "document store query failed", sys := sys, storeAccesses := 4 }
    else
      { response := .ok (computeListing sys status ty userId)
        sys := { sys with
          listingCache := setKey sys.listingCache key (computeListing sys status ty userId) }
        storeAccesses := 4 }

/-- Evaluation of `listReports` on a cache hit. -/
theorem listReports_hit (sys : Sys) (out : Outages) (status ty userId : String)
    (cached : List EnrichedReport)
    (h : sys.listingCache (cacheKey status ty userId) = some cached) :
    listReports sys out status ty userId
      = { response := .ok cached, sys := sys, storeAccesses := 0 } := by
  simp [listReports, h]

/-- Evaluation of `listReports` on a miss with a failing enrichment query. -/
theorem listReports_miss_err (sys : Sys) (out : Outages) (status ty userId : String)
    (h : sys.listingCache (cacheKey status ty userId) = none)
    (hout : (out.upsFail || out.cmsFail || out.myUpsFail) = true) :
    listReports sys out status ty userId
      = { response := .error "document store query failed", sys := sys
          storeAccesses := 4 } := by
  simp [listReports, h, hout]

/-- Evaluation of `listReports` on a miss with all queries succeeding. -/
theorem listReports_miss_ok (sys : Sys) (out : Outages) (status ty userId : String)
    (h : sys.listingCache (cacheKey status ty userId) = none)
    (hout : (out.upsFail || out.cmsFail || out.myUpsFail) = false) :
    listReports sys out status ty userId
      = { response := .ok (computeListing sys status ty userId)
          sys := { sys with
            listingCache := setKey sys.listingCache (cacheKey status ty userId)
              (computeListing sys status ty userId) }
          storeAccesses := 4 } := by
  simp [listReports, h, hout]

/-- Model of `Upvote.findOne({ user: userId, report: reportId })` tested for existence. -/
def upvoteExists (ups : List Upvote) (u r : String) : Bool :=
  ups.any (fun x => x.user == u && x.report == r)

/-- The toggle step of `POST /api/reports/:id/upvote`: delete the existing
upvote document if one exists, otherwise create one. -/
def toggleUpvotes (ups : List Upvote) (u r : String) : List Upvote :=
  if upvoteExists ups u r then
    ups.eraseP (fun x => x.user == u && x.report == r)
  else
    { user := u, report := r } :: ups

/-- Result of a mutation request whose body is only consumed as
`{ httpStatus }` by these proofs. -/
structure MutResult where
  httpStatus : Nat
  sys : Sys

/-- Handler `POST /api/reports/:id/upvote`: toggle, recount via
`Upvote.countDocuments({ report: reportId })`, then
`await invalidateUserReportCache(userId)`.  The handler has no try/catch of
its own, so when the redis delete rejects the error is forwarded by
`asyncHandler` to the Express error handler instead of the success response
`{ upvotes, upvoted }`. -/
def upvoteReport (sys : Sys) (redisFail : Bool) (userId reportId : String) :
    Except String (Nat × Bool) × Sys :=
  let existing := upvoteExists sys.upvotes userId reportId
  let ups := toggleUpvotes sys.upvotes userId reportId
  let count := ups.countP (fun x => x.report == reportId)
  let sys1 := { sys with upvotes := ups }
  if redisFail then
    (.error "redis del rejected", sys1)
  else
    (.ok (count, !existing),
      { sys1 with listingCache := invalidateUserReportCache sys1.listingCache userId })

/-- Handler `POST /api/reports`: `Report.create({ user: req.user.id, ... })`, then
`await invalidateUserReportCache(req.user.id)` and a 201 response — all inside
one try/catch whose catch responds `500 'Server error creating report'`.
When the redis delete rejects, the catch runs after the document was already
created, so the committed write is answered with a 500. -/
def createReport (sys : Sys) (redisFail : Bool) (userId : String) (body : Report) :
    MutResult :=
  let report := { body with user := userId }
  let sys1 := { sys with reports := sys.reports ++ [report] }
  if redisFail then
    { httpStatus := 500, sys := sys1 }
  else
    { httpStatus := 201
      sys := { sys1 with listingCache := invalidateUserReportCache sys1.listingCache userId } }

/-- The request body consumed by `PUT /api/reports/:id`. -/
structure PutBody where
  issueType : String
  latitude : ℚ
  longitude : ℚ
  description : String
  address : String
  images : List String
deriving DecidableEq, Repr

/-- The field updates applied by `PUT /api/reports/:id` before `rpt.save()`;
`imageUrls` is replaced only `if (req.files.length)`. -/
def applyPut (b : PutBody) (rpt : Report) : Report :=
  { rpt with
    issueType := b.issueType
    location := (b.longitude, b.latitude)
    description := b.description
    address := b.address
    imageUrls := if b.images.isEmpty then rpt.imageUrls else b.images }

/-- Handler `PUT /api/reports/:id`: 404 when the report is missing, 403 when the
requester is not the owner, otherwise apply the updates, save, invalidate the
requester's listing cache and respond 200.  The handler checks existence and
ownership only — it never inspects `rpt.status`. -/
def putReport (sys : Sys) (requesterId reportId : String) (b : PutBody) : MutResult :=
  match sys.reports.find? (fun r => r.rid == reportId) with
  | none => { httpStatus := 404, sys := sys }
  | some rpt =>
    if rpt.user ≠ requesterId then { httpStatus := 403, sys := sys }
    else
      { httpStatus := 200
        sys := { sys with
          reports := sys.reports.map
            (fun r => if r.rid == reportId then applyPut b rpt else r)
          listingCache := invalidateUserReportCache sys.listingCache requesterId } }

/-- Handler `DELETE /api/reports/:id`: 404 when missing, 403 when not the owner,
`400 'Only pending can be deleted'` when `rpt.status !== 'Pending'`, otherwise
delete the document, invalidate and respond 200. -/
def deleteReport (sys : Sys) (requesterId reportId : String) : MutResult :=
  match sys.reports.find? (fun r => r.rid == reportId) with
  | none => { httpStatus := 404, sys := sys }
  | some rpt =>
    if rpt.user ≠ requesterId then { httpStatus := 403, sys := sys }
    else if rpt.status ≠ "Pending" then { httpStatus := 400, sys := sys }
    else
      { httpStatus := 200
        sys := { sys with
          reports := sys.reports.eraseP (fun r => r.rid == reportId)
          listingCache := invalidateUserReportCache sys.listingCache requesterId } }

/-- Handler `PUT /api/comments/:id` from `src/routes/comments.js`: 404 when the
comment is missing, 403 when the requester is not the author, otherwise set
the text and save.  The handler imports no redis client and performs no cache
operation on any path. -/
def editComment (sys : Sys) (requesterId commentId text : String) : MutResult :=
  match sys.comments.find? (fun c => c.cid == commentId) with
  | none => { httpStatus := 404, sys := sys }
  | some c =>
    if c.user ≠ requesterId then { httpStatus := 403, sys := sys }
    else
      { httpStatus := 200
        sys := { sys with comments := (sys.comments.map
            (fun x => if x.cid == commentId then { x with text := text } else x)) } }

/-- Handler `DELETE /api/comments/:id`: 404 when missing, 403 when not the author,
otherwise `comment.deleteOne()`.  No cache operation on any path. -/
def deleteComment (sys : Sys) (requesterId commentId : String) : MutResult :=
  match sys.comments.find? (fun c => c.cid == commentId) with
  | none => { httpStatus := 404, sys := sys }
  | some c =>
    if c.user ≠ requesterId then { httpStatus := 403, sys := sys }
    else
      { httpStatus := 200
        sys := { sys with comments := sys.comments.eraseP (fun x => x.cid == commentId) } }

/-- A Fixed report's two timestamps, as selected by
`Report.find({ status: 'Fixed' }).select('createdAt updatedAt')`
(milliseconds since the epoch). -/
structure FixedDoc where
  createdAt : Int
  updatedAt : Int
deriving DecidableEq, Repr

/-- The divisor `1000*60*60*24` converting milliseconds to days. -/
def msPerDay : ℚ := 1000 * 60 * 60 * 24

/-- Model of `x.toFixed(1)` followed by `parseFloat`, in exact rational
arithmetic: round to the nearest tenth, halves up. -/
def toFixed1 (q : ℚ) : ℚ := (⌊q * 10 + 1 / 2⌋ : ℚ) / 10

/-- The `avgResolution` computation of `GET /api/admin/dashboard`:
`fixedDocs.length ? (fixedDocs.reduce((sum, r) => sum +
((r.updatedAt - r.createdAt)/(1000*60*60*24)), 0) / fixedDocs.length)
.toFixed(1) : 0`, with numbers modelled as exact rationals. -/
def avgResolution (fixedDocs : List FixedDoc) : ℚ :=
  if fixedDocs.length ≠ 0 then
    toFixed1
      ((fixedDocs.foldl
          (fun sum r => sum + (((r.updatedAt - r.createdAt : Int) : ℚ) / msPerDay)) 0)
        / fixedDocs.length)
  else 0

/-! Concrete states used to evaluate the handlers at specific inputs. -/

/-- The empty listing cache. -/
def noCache : ListingCache := fun _ => none

/-- A sample Pending pothole report owned by user `u1`. -/
def sampleReport : Report :=
  { rid := "r1", user := "u1", issueType := "Pothole", location := (-79.4, 43.7)
    address := "1 Main St", description := "large pothole near the curb"
    imageUrls := [], status := "Pending", rejectReason := none
    createdAt := 0, updatedAt := 0 }

/-- The enriched view of `sampleReport` before any upvote or comment: the
shape a `listReports` miss caches for it. -/
def staleView : EnrichedReport :=
  { report := sampleReport, upvoteCount := 0, commentCount := 0, hasUpvoted := false }

/-- A listing cache holding one entry: the (`Pending`, `all`) listing of user
`u1`, containing `staleView`. -/
def staleCache : ListingCache :=
  fun k => if k = cacheKey "Pending" "all" "u1" then some [staleView] else none

/-- State before the C2 scenario: `sampleReport` exists, user `u1` has not
upvoted it yet, and `staleCache` holds the (`Pending`, `all`) listing. -/
def sysC2 : Sys :=
  { reports := [sampleReport], upvotes := [], comments := []
    listingCache := staleCache, dashCache := none }

/-- State after user `u1` toggles an upvote on `r1` (a §4.3 mutation), with
the invalidation step completing successfully. -/
def sysC2after : Sys := (upvoteReport sysC2 false "u1" "r1").2

/-- Claim C1: `invalidateUserReportCache(userId)` is claimed to delete every
listing cache key of the form `reports:<status>:<type>:user:<userId>` across
every supported (statusFilter, typeFilter) combination.  Evaluating the code:
`Pending` is a supported status filter and `all` a supported type filter, yet
the key `reports:Pending:all:user:u1` is not among the keys the function
deletes, and an entry cached under it survives the invalidation. -/
theorem C1_invalidation_misses_supported_status_key :
    "Pending" ∈ statusFilters ∧ "all" ∈ typeFilters ∧
    cacheKey "Pending" "all" "u1" ∉ invalidationKeys "u1" ∧
    invalidateUserReportCache staleCache "u1" (cacheKey "Pending" "all" "u1")
      = some [staleView] := by
  refine ⟨by decide, by decide, by decide, ?_⟩
  rfl

/-- Claim C2: after a §4.3 mutation (here: `u1` toggles an upvote on `r1`,
with invalidation running successfully), the next `listReports` call for
`u1` with the supported filters (`Pending`, `all`) is served from the cache
and still returns the pre-mutation listing: `hasUpvoted = false` and
`upvoteCount = 0`, although the store now records the upvote. -/
theorem C2_stale_pending_listing_survives_upvote_invalidation :
    (upvoteReport sysC2 false "u1" "r1").1 = .ok (1, true) ∧
    sysC2after.upvotes = [{ user := "u1", report := "r1" }] ∧
    "Pending" ∈ statusFilters ∧ "all" ∈ typeFilters ∧
    (listReports sysC2after
        { upsFail := false, cmsFail := false, myUpsFail := false }
        "Pending" "all" "u1").response = .ok [staleView] ∧
    (listReports sysC2after
        { upsFail := false, cmsFail := false, myUpsFail := false }
        "Pending" "all" "u1").storeAccesses = 0 ∧
    staleView.hasUpvoted = false ∧ staleView.upvoteCount = 0 := by
  exact ⟨rfl, rfl, by decide, by decide, rfl, rfl, rfl, rfl⟩

/-- State with no documents and an empty cache. -/
def sysEmpty : Sys :=
  { reports := [], upvotes := [], comments := []
    listingCache := noCache, dashCache := none }

/-- Claim C4 (counterexample): with the redis delete rejecting, the create
mutation commits its write — the new report is in the store — yet the
response is the catch block's 500, not the 201 success, refuting "the
mutation's response still reports success even when invalidation fails". -/
theorem C4_counterexample_create_fails_on_invalidation_error :
    (createReport sysEmpty true "u1" sampleReport).sys.reports = [sampleReport] ∧
    (createReport sysEmpty true "u1" sampleReport).httpStatus = 500 ∧
    (createReport sysEmpty false "u1" sampleReport).httpStatus = 201 := by
  exact ⟨rfl, rfl, rfl⟩

/-- Claim C4 (amended): an invalidation failure is not swallowed: the
underlying write still commits, but the triggering mutation's response is an
error — the create route's catch answers 500 instead of 201, and the upvote
route forwards the rejection to the Express error handler instead of the
`{ upvotes, upvoted }` success body. -/
theorem C4_invalidation_failure_fails_mutation_response :
    ∀ (sys : Sys) (userId reportId : String) (body : Report),
      (createReport sys true userId body).httpStatus = 500 ∧
      (createReport sys true userId body).sys.reports
        = sys.reports ++ [{ body with user := userId }] ∧
      (upvoteReport sys true userId reportId).1.isOk = false ∧
      (upvoteReport sys true userId reportId).2.upvotes
        = toggleUpvotes sys.upvotes userId reportId := by
  intro sys userId reportId body
  exact ⟨rfl, rfl, rfl, rfl⟩

/-- A report owned by `u1` whose status is `Fixed` (not `Pending`). -/
def fixedReport : Report :=
  { rid := "r2", user := "u1", issueType := "Pothole", location := (0, 0)
    address := "2 Main St", description := "old description"
    imageUrls := [], status := "Fixed", rejectReason := none
    createdAt := 0, updatedAt := 0 }

/-- State holding only `fixedReport`. -/
def sysC7 : Sys :=
  { reports := [fixedReport], upvotes := [], comments := []
    listingCache := noCache, dashCache := none }

/-- The edit request body used against `fixedReport`. -/
def putBodyC7 : PutBody :=
  { issueType := "Other", latitude := 1, longitude := 2
    description := "edited description", address := "3 Main St", images := [] }

/-- Claim C7: an owner-initiated edit of a non-Pending report is claimed to
fail and leave the report unchanged.  Evaluating the code: on the owner's
`PUT` against the `Fixed` report `r2` the handler answers 200 and stores the
updated document (it checks existence and ownership only), while the `DELETE`
handler on the same state does enforce the Pending guard (400, unchanged). -/
theorem C7_owner_edit_of_non_pending_report_succeeds :
    fixedReport.status = "Fixed" ∧ fixedReport.user = "u1" ∧
    (putReport sysC7 "u1" "r2" putBodyC7).httpStatus = 200 ∧
    (putReport sysC7 "u1" "r2" putBodyC7).sys.reports = [applyPut putBodyC7 fixedReport] ∧
    applyPut putBodyC7 fixedReport ≠ fixedReport ∧
    (deleteReport sysC7 "u1" "r2").httpStatus = 400 ∧
    (deleteReport sysC7 "u1" "r2").sys.reports = [fixedReport] := by
  exact ⟨rfl, rfl, rfl, rfl, by decide, rfl, rfl⟩

/-- The enriched view of `sampleReport` carrying `commentCount = 1`,
as a `listReports` miss would cache it while comment `c1` exists. -/
def commentedView : EnrichedReport :=
  { report := sampleReport, upvoteCount := 0, commentCount := 1, hasUpvoted := false }

/-- State for the C10 scenario: one comment `c1` by `u1` on `r1`, and the
(`all`, `all`) listing of `u1` cached with `commentCount = 1`. -/
def sysC10 : Sys :=
  { reports := [sampleReport], upvotes := []
    comments := [{ cid := "c1", user := "u1", report := "r1", text := "me too" }]
    listingCache := fun k => if k = cacheKey "all" "all" "u1" then some [commentedView] else none
    dashCache := none }

/-- Claim C10: the comment edit and comment delete handlers perform no cache
operation on any path — both cache components are left untouched for every
state and request — and concretely, after `u1` deletes comment `c1`, the
cached (`all`, `all`) listing still reports `commentCount = 1` although no
Comment record for `r1` remains. -/
theorem C10_comment_edit_delete_never_invalidate_cache :
    (∀ (sys : Sys) (rq cid tx : String),
      (editComment sys rq cid tx).sys.listingCache = sys.listingCache ∧
      (editComment sys rq cid tx).sys.dashCache = sys.dashCache) ∧
    (∀ (sys : Sys) (rq cid : String),
      (deleteComment sys rq cid).sys.listingCache = sys.listingCache ∧
      (deleteComment sys rq cid).sys.dashCache = sys.dashCache) ∧
    (deleteComment sysC10 "u1" "c1").httpStatus = 200 ∧
    (deleteComment sysC10 "u1" "c1").sys.comments.countP (fun c => c.report == "r1") = 0 ∧
    (deleteComment sysC10 "u1" "c1").sys.listingCache (cacheKey "all" "all" "u1")
      = some [commentedView] ∧
    commentedView.commentCount = 1 := by
  refine ⟨?_, ?_, rfl, rfl, rfl, rfl⟩
  · intro sys rq cid tx
    unfold editComment
    cases h : sys.comments.find? (fun c => c.cid == cid) with
    | none => exact ⟨rfl, rfl⟩
    | some c =>
      dsimp only
      split
      · exact ⟨rfl, rfl⟩
      · exact ⟨rfl, rfl⟩
  · intro sys rq cid
    unfold deleteComment
    cases h : sys.comments.find? (fun c => c.cid == cid) with
    | none => exact ⟨rfl, rfl⟩
    | some c =>
      dsimp only
      split
      · exact ⟨rfl, rfl⟩
      · exact ⟨rfl, rfl⟩

/-- Claim C3: when the request misses the cache and any of the three
enrichment queries fails, `listReports` answers with an error, the state —
in particular the cache — is unchanged, and the request's key still holds no
entry, so a repeat of the same call still misses. -/
theorem C3_enrichment_failure_writes_no_cache_entry :
    ∀ (sys : Sys) (out : Outages) (status ty userId : String),
      sys.listingCache (cacheKey status ty userId) = none →
      (out.upsFail || out.cmsFail || out.myUpsFail) = true →
      ∃ e, (listReports sys out status ty userId).response = .error e ∧
        (listReports sys out status ty userId).sys = sys ∧
        (listReports sys out status ty userId).sys.listingCache
          (cacheKey status ty userId) = none := by
  intro sys out status ty userId hmiss hfail
  refine ⟨"document store query failed", ?_⟩
  rw [listReports_miss_err sys out status ty userId hmiss hfail]
  exact ⟨rfl, rfl, hmiss⟩

/-- Claim C3 witness: the outage of the comment-count query at a concrete
miss. -/
theorem C3_witness :
    sysEmpty.listingCache (cacheKey "all" "all" "u1") = none ∧
    (({ upsFail := false, cmsFail := true, myUpsFail := false } : Outages).upsFail
      || ({ upsFail := false, cmsFail := true, myUpsFail := false } : Outages).cmsFail
      || ({ upsFail := false, cmsFail := true, myUpsFail := false } : Outages).myUpsFail) = true ∧
    ∃ e, (listReports sysEmpty { upsFail := false, cmsFail := true, myUpsFail := false }
        "all" "all" "u1").response = .error e ∧
      (listReports sysEmpty { upsFail := false, cmsFail := true, myUpsFail := false }
        "all" "all" "u1").sys = sysEmpty ∧
      (listReports sysEmpty { upsFail := false, cmsFail := true, myUpsFail := false }
        "all" "all" "u1").sys.listingCache (cacheKey "all" "all" "u1") = none :=
  ⟨rfl, rfl,
    C3_enrichment_failure_writes_no_cache_entry sysEmpty
      { upsFail := false, cmsFail := true, myUpsFail := false } "all" "all" "u1" rfl rfl⟩

/-- Claim C6: if a `listReports` call succeeds, an immediately repeated call
with the same `(statusFilter, typeFilter, requesterId)` on the resulting
state returns the identical value, issues no Document Store query, and the
value it serves sits in the cache under the request's key. -/
theorem C6_repeat_call_served_from_cache :
    ∀ (sys : Sys) (out out2 : Outages) (status ty userId : String)
      (v : List EnrichedReport),
      (listReports sys out status ty userId).response = .ok v →
      (listReports (listReports sys out status ty userId).sys out2
          status ty userId).response = .ok v ∧
      (listReports (listReports sys out status ty userId).sys out2
          status ty userId).storeAccesses = 0 ∧
      (listReports sys out status ty userId).sys.listingCache
        (cacheKey status ty userId) = some v := by
  intro sys out out2 status ty userId v h
  cases h0 : sys.listingCache (cacheKey status ty userId) with
  | some cached =>
    rw [listReports_hit sys out status ty userId cached h0] at h ⊢
    have hv : cached = v := by simpa using h
    subst hv
    rw [listReports_hit sys out2 status ty userId cached h0]
    exact ⟨rfl, rfl, h0⟩
  | none =>
    cases hout : (out.upsFail || out.cmsFail || out.myUpsFail) with
    | true =>
      rw [listReports_miss_err sys out status ty userId h0 hout] at h
      exact (Except.noConfusion h)
    | false =>
      rw [listReports_miss_ok sys out status ty userId h0 hout] at h ⊢
      have hv : computeListing sys status ty userId = v := by simpa using h
      have hkey : (setKey sys.listingCache (cacheKey status ty userId)
          (computeListing sys status ty userId)) (cacheKey status ty userId)
            = some (computeListing sys status ty userId) := by
        simp [setKey]
      rw [listReports_hit _ out2 status ty userId _ hkey]
      refine ⟨by rw [hv], rfl, ?_⟩
      show setKey sys.listingCache (cacheKey status ty userId)
          (computeListing sys status ty userId) (cacheKey status ty userId) = some v
      rw [hkey, hv]

/-- Claim C6 witness: a concrete first call (miss) followed by a repeat. -/
theorem C6_witness :
    (listReports sysC2 { upsFail := false, cmsFail := false, myUpsFail := false }
        "all" "all" "u1").response = .ok [staleView] ∧
    (listReports (listReports sysC2
          { upsFail := false, cmsFail := false, myUpsFail := false }
          "all" "all" "u1").sys
        { upsFail := false, cmsFail := false, myUpsFail := false }
        "all" "all" "u1").response = .ok [staleView] ∧
    (listReports (listReports sysC2
          { upsFail := false, cmsFail := false, myUpsFail := false }
          "all" "all" "u1").sys
        { upsFail := false, cmsFail := false, myUpsFail := false }
        "all" "all" "u1").storeAccesses = 0 ∧
    (listReports sysC2 { upsFail := false, cmsFail := false, myUpsFail := false }
        "all" "all" "u1").sys.listingCache (cacheKey "all" "all" "u1")
      = some [staleView] := by
  have h1 : (listReports sysC2 { upsFail := false, cmsFail := false, myUpsFail := false }
      "all" "all" "u1").response = .ok [staleView] := rfl
  have h2 := C6_repeat_call_served_from_cache sysC2
    { upsFail := false, cmsFail := false, myUpsFail := false }
    { upsFail := false, cmsFail := false, myUpsFail := false }
    "all" "all" "u1" [staleView] h1
  exact ⟨h1, h2.1, h2.2.1, h2.2.2⟩

/-- Folding `+ f r` over a list accumulates the sum of the mapped list. -/
theorem foldl_add_map_sum (f : FixedDoc → ℚ) :
    ∀ (l : List FixedDoc) (init : ℚ),
      l.foldl (fun s r => s + f r) init = init + (l.map f).sum := by
  intro l
  induction l with
  | nil => intro init; simp
  | cons a t ih =>
    intro init
    simp only [List.foldl_cons, List.map_cons, List.sum_cons, ih]
    ring

/-- Dividing each summand by a constant divides the sum. -/
theorem sum_map_div_const (f : FixedDoc → ℚ) (c : ℚ) :
    ∀ l : List FixedDoc, (l.map (fun r => f r / c)).sum = (l.map f).sum / c := by
  intro l
  induction l with
  | nil => simp
  | cons a t ih =>
    simp only [List.map_cons, List.sum_cons, ih]
    rw [add_div]

/-- On a nonempty list of Fixed reports the code's accumulation equals the
mean of the resolution times in days, rounded to one decimal. -/
theorem avgResolution_nonempty (l : List FixedDoc) (hl : l ≠ []) :
    avgResolution l
      = toFixed1 (((l.map (fun r => ((r.updatedAt - r.createdAt : Int) : ℚ))).sum
          / msPerDay) / l.length) := by
  have hlen : l.length ≠ 0 := by
    simpa using fun h => hl (List.length_eq_zero.mp h)
  rw [avgResolution, if_pos hlen]
  congr 1
  rw [foldl_add_map_sum, zero_add, sum_map_div_const]

/-- Rounding the exact value `2` to one decimal gives `2`. -/
theorem toFixed1_two : toFixed1 2 = 2 := by
  show ((⌊(2 : ℚ) * 10 + 1 / 2⌋ : ℚ) / 10) = 2
  have h1 : (2 : ℚ) * 10 + 1 / 2 = 41 / 2 := by norm_num
  rw [h1]
  have hfloor : ⌊(41 : ℚ) / 2⌋ = 20 := by
    rw [Int.floor_eq_iff]
    constructor <;> norm_num
  rw [hfloor]
  norm_num

/-- Claim C8: the dashboard's `avgResolution` is `0` when no Fixed report
exists, equals the mean of `(updatedAt - createdAt)` over the Fixed reports
expressed in days and rounded to one decimal otherwise, and in particular
two Fixed reports resolved in exactly 1.0 and 3.0 days average to `2.0`.
(Numbers are modelled in exact rational arithmetic.) -/
theorem C8_dashboard_avg_resolution :
    avgResolution [] = 0 ∧
    (∀ l : List FixedDoc, l ≠ [] →
      avgResolution l
        = toFixed1 (((l.map (fun r => ((r.updatedAt - r.createdAt : Int) : ℚ))).sum
            / msPerDay) / l.length)) ∧
    avgResolution [{ createdAt := 0, updatedAt := 86400000 },
      { createdAt := 0, updatedAt := 259200000 }] = 2 := by
  refine ⟨by simp [avgResolution], fun l hl => avgResolution_nonempty l hl, ?_⟩
  rw [avgResolution_nonempty _ (by decide)]
  have harg : ((([{ createdAt := 0, updatedAt := 86400000 },
      { createdAt := 0, updatedAt := 259200000 }] : List FixedDoc).map
        (fun r => ((r.updatedAt - r.createdAt : Int) : ℚ))).sum / msPerDay)
      / (([{ createdAt := 0, updatedAt := 86400000 },
        { createdAt := 0, updatedAt := 259200000 }] : List FixedDoc).length) = 2 := by
    norm_num [msPerDay]
  rw [harg, toFixed1_two]

/-- Claim C8 witness: one Fixed report resolved in exactly half a day. -/
theorem C8_witness :
    ([{ createdAt := 0, updatedAt := 43200000 }] : List FixedDoc) ≠ [] ∧
    avgResolution [{ createdAt := 0, updatedAt := 43200000 }]
      = toFixed1 (((([{ createdAt := 0, updatedAt := 43200000 }] : List FixedDoc).map
          (fun r => ((r.updatedAt - r.createdAt : Int) : ℚ))).sum / msPerDay)
          / ([{ createdAt := 0, updatedAt := 43200000 }] : List FixedDoc).length) :=
  ⟨by decide,
    C8_dashboard_avg_resolution.2.1 [{ createdAt := 0, updatedAt := 43200000 }] (by decide)⟩

/-- The uniqueness constraint declared by the Upvote schema:
`index({ user: 1, report: 1 }, { unique: true })` — no two upvote documents
agree on both `user` and `report`. -/
def uniqueUpvotes (ups : List Upvote) : Prop :=
  ups.Pairwise (fun a b => ¬(a.user = b.user ∧ a.report = b.report))

/-- After erasing the matched upvote from a collection satisfying the unique
index, no `(u, r)` upvote remains. -/
theorem upvoteExists_eraseP_eq_false (u r : String) :
    ∀ ups : List Upvote, uniqueUpvotes ups →
      upvoteExists (ups.eraseP (fun x => x.user == u && x.report == r)) u r = false := by
  intro ups
  induction ups with
  | nil => intro _; rfl
  | cons a t ih =>
    intro hu
    rw [uniqueUpvotes, List.pairwise_cons] at hu
    obtain ⟨ha, ht⟩ := hu
    cases hpa : (a.user == u && a.report == r) with
    | true =>
      have herase : (a :: t).eraseP (fun x => x.user == u && x.report == r) = t :=
        List.eraseP_cons_of_pos hpa
      rw [herase]
      have hau : a.user = u ∧ a.report = r := by simpa using hpa
      simp only [upvoteExists, List.any_eq_false]
      intro x hx
      simp only [Bool.and_eq_true, beq_iff_eq, not_and]
      intro hxu hxr
      exact ha x hx ⟨hau.1.trans hxu.symm, hau.2.trans hxr.symm⟩
    | false =>
      have herase : (a :: t).eraseP (fun x => x.user == u && x.report == r)
          = a :: t.eraseP (fun x => x.user == u && x.report == r) :=
        List.eraseP_cons_of_neg (by simp [hpa])
      rw [herase]
      simp only [upvoteExists, List.any_cons, hpa, Bool.false_or]
      exact ih ht

/-- Erasing the matched `(u, r)` upvote lowers the report's upvote count by
exactly one. -/
theorem countP_eraseP_add_one (u r : String) :
    ∀ ups : List Upvote, upvoteExists ups u r = true →
      ((ups.eraseP (fun x => x.user == u && x.report == r)).countP
          (fun x => x.report == r)) + 1
        = ups.countP (fun x => x.report == r) := by
  intro ups
  induction ups with
  | nil => intro h; exact absurd h (by simp [upvoteExists])
  | cons a t ih =>
    intro h
    cases hpa : (a.user == u && a.report == r) with
    | true =>
      have herase : (a :: t).eraseP (fun x => x.user == u && x.report == r) = t :=
        List.eraseP_cons_of_pos hpa
      rw [herase]
      have har : (a.report == r) = true := by
        have := (Bool.and_eq_true _ _).mp hpa
        exact this.2
      have hcnt : List.countP (fun x => x.report == r) (a :: t)
          = List.countP (fun x => x.report == r) t + 1 :=
        List.countP_cons_of_pos _ _ har
      rw [hcnt]
    | false =>
      have herase : (a :: t).eraseP (fun x => x.user == u && x.report == r)
          = a :: t.eraseP (fun x => x.user == u && x.report == r) :=
        List.eraseP_cons_of_neg (by simp [hpa])
      rw [herase]
      have h' : upvoteExists t u r = true := by
        simpa [upvoteExists, List.any_cons, hpa] using h
      rw [List.countP_cons, List.countP_cons, ← ih h']
      omega

/-- A freshly created `(u, r)` upvote is found by `Upvote.findOne`. -/
theorem upvoteExists_cons_self (u r : String) (ups : List Upvote) :
    upvoteExists ({ user := u, report := r } :: ups) u r = true := by
  simp [upvoteExists]

/-- Claim C9: toggling the upvote twice by the same user on the same report,
on a collection satisfying the schema's unique `(user, report)` index,
restores the report's upvote count, and when the user had not upvoted before
the first toggle, `hasUpvoted` (the existence of a `(u, r)` upvote) is false
again afterwards. -/
theorem C9_upvote_toggle_twice_restores :
    ∀ (ups : List Upvote) (u r : String), uniqueUpvotes ups →
      (toggleUpvotes (toggleUpvotes ups u r) u r).countP (fun x => x.report == r)
        = ups.countP (fun x => x.report == r) ∧
      (upvoteExists ups u r = false →
        upvoteExists (toggleUpvotes (toggleUpvotes ups u r) u r) u r = false) := by
  intro ups u r hu
  cases h : upvoteExists ups u r with
  | false =>
    have t1 : toggleUpvotes ups u r = { user := u, report := r } :: ups := by
      simp [toggleUpvotes, h]
    have t2 : toggleUpvotes ({ user := u, report := r } :: ups) u r = ups := by
      simp [toggleUpvotes, upvoteExists_cons_self u r ups]
    rw [t1, t2]
    exact ⟨rfl, fun _ => h⟩
  | true =>
    have t1 : toggleUpvotes ups u r
        = ups.eraseP (fun x => x.user == u && x.report == r) := by
      simp [toggleUpvotes, h]
    have h2 : upvoteExists (ups.eraseP (fun x => x.user == u && x.report == r)) u r
        = false := upvoteExists_eraseP_eq_false u r ups hu
    have t2 : toggleUpvotes (ups.eraseP (fun x => x.user == u && x.report == r)) u r
        = { user := u, report := r }
            :: ups.eraseP (fun x => x.user == u && x.report == r) := by
      simp [toggleUpvotes, h2]
    rw [t1, t2]
    constructor
    · have hposa : (({ user := u, report := r } : Upvote).report == r) = true := by
        simp
      have hcnt2 : List.countP (fun x => x.report == r)
          ({ user := u, report := r }
            :: ups.eraseP (fun x => x.user == u && x.report == r))
          = List.countP (fun x => x.report == r)
              (ups.eraseP (fun x => x.user == u && x.report == r)) + 1 :=
        List.countP_cons_of_pos _ _ hposa
      rw [hcnt2]
      exact countP_eraseP_add_one u r ups h
    · intro hf
      exact Bool.noConfusion hf

/-- Claim C9 witness: a collection where `u2` has upvoted `r1` and `u1` has
not; `u1` toggles twice. -/
theorem C9_witness :
    uniqueUpvotes [{ user := "u2", report := "r1" }] ∧
    (toggleUpvotes (toggleUpvotes ([{ user := "u2", report := "r1" }] : List Upvote)
          "u1" "r1") "u1" "r1").countP (fun x => x.report == "r1")
      = ([{ user := "u2", report := "r1" }] : List Upvote).countP
          (fun x => x.report == "r1") ∧
    (upvoteExists [{ user := "u2", report := "r1" }] "u1" "r1" = false →
      upvoteExists (toggleUpvotes
          (toggleUpvotes ([{ user := "u2", report := "r1" }] : List Upvote) "u1" "r1")
          "u1" "r1") "u1" "r1" = false) := by
  have hu : uniqueUpvotes [{ user := "u2", report := "r1" }] := by
    rw [uniqueUpvotes]
    exact List.pairwise_singleton _ _
  have h := C9_upvote_toggle_twice_restores [{ user := "u2", report := "r1" }] "u1" "r1" hu
  exact ⟨hu, h.1, h.2⟩

/-- Looking a key up in a map whose entries pair each element of `m` with a
function of it yields that function exactly when the key occurs in `m`. -/
theorem lookup_map_keyed (f : String → Nat) (k : String) :
    ∀ m : List String,
      (m.map (fun a => (a, f a))).lookup k = if k ∈ m then some (f k) else none := by
  intro m
  induction m with
  | nil => simp
  | cons a t ih =>
    simp only [List.map_cons, List.lookup_cons]
    by_cases h : k = a
    · subst h
      simp
    · have hba : (k == a) = false := by simpa using h
      rw [hba]
      simp only [List.mem_cons, ih]
      by_cases hkt : k ∈ t
      · rw [if_pos hkt, if_pos (Or.inr hkt)]
      · rw [if_neg hkt, if_neg (by simpa using ⟨h, hkt⟩)]

/-- Lookup `upMap[id] || 0` over a grouped-count map returns the multiplicity of the
id among the grouped references. -/
theorem lookupCount_grouped (matched : List String) (k : String) :
    lookupCount (matched.dedup.map (fun j => (j, matched.count j))) k
      = matched.count k := by
  simp only [lookupCount, lookup_map_keyed]
  by_cases h : k ∈ matched.dedup
  · rw [if_pos h]
  · rw [if_neg h]
    have hk : k ∉ matched := fun hk => h (List.mem_dedup.mpr hk)
    exact (List.count_eq_zero.mpr hk).symm

/-- Counting a key among the projections of the documents matched by the
`$in ids` filter equals counting the documents referencing the key, provided
the key is one of the ids. -/
theorem count_matched_eq_countP {α : Type} (f : α → String) (ids : List String)
    (k : String) (hk : k ∈ ids) :
    ∀ l : List α,
      ((l.filter (fun x => ids.contains (f x))).map f).count k
        = l.countP (fun x => f x == k) := by
  intro l
  induction l with
  | nil => rfl
  | cons a t ih =>
    cases hfa : ids.contains (f a) with
    | false =>
      have hfilter : (a :: t).filter (fun x => ids.contains (f x))
          = t.filter (fun x => ids.contains (f x)) :=
        List.filter_cons_of_neg (by rw [hfa]; simp)
      have hne : ¬((fun x => f x == k) a = true) := by
        simp only [beq_iff_eq]
        intro hfk
        rw [hfk] at hfa
        have hc : ids.contains k = true := by
          simpa [List.elem_iff] using hk
        rw [hc] at hfa
        exact Bool.noConfusion hfa
      have hcp : List.countP (fun x => f x == k) (a :: t)
          = List.countP (fun x => f x == k) t :=
        List.countP_cons_of_neg _ _ hne
      rw [hfilter, hcp]
      exact ih
    | true =>
      have hfilter : (a :: t).filter (fun x => ids.contains (f x))
          = a :: t.filter (fun x => ids.contains (f x)) :=
        List.filter_cons_of_pos hfa
      rw [hfilter, List.map_cons, List.count_cons, ih, List.countP_cons]

/-- Membership of a report id in the requester's projected upvote list agrees
with existence of a matching upvote document, provided the id is queried. -/
theorem myUpvotes_contains (uid : String) (ids : List String) (ups : List Upvote)
    (k : String) (hk : k ∈ ids) :
    (myUpvotes uid ids ups).contains k
      = ups.any (fun u => u.user == uid && u.report == k) := by
  rw [← Bool.coe_iff_coe]
  simp only [myUpvotes, List.contains_iff_exists_mem_beq, List.mem_map,
    List.mem_filter, List.any_eq_true, Bool.and_eq_true, beq_iff_eq]
  constructor
  · rintro ⟨j, ⟨u, ⟨hu, hfu, _⟩, huj⟩, hkj⟩
    exact ⟨u, hu, hfu, by rw [huj, ← hkj]⟩
  · rintro ⟨u, hu, huu, hur⟩
    refine ⟨k, ⟨u, ⟨hu, huu, ?_⟩, hur⟩, by simp⟩
    rw [hur]
    simpa [List.elem_iff] using hk

/-- Claim C5: the enrichment step of `listReports` produces one Enriched
Report View per input report preserving input order, with `upvoteCount` the
number of Upvote records referencing the report, `commentCount` the number of
Comment records referencing it, and `hasUpvoted` the existence of an Upvote
by the requester on it (ids with no grouped or membership entry defaulting to
zero and false via the lookup fallbacks). -/
theorem C5_enrichment_order_and_counts :
    ∀ (reports : List Report) (ups : List Upvote) (cms : List Comment) (uid : String),
      (enrich (upvoteAgg (reports.map (·.rid)) ups)
          (commentAgg (reports.map (·.rid)) cms)
          (myUpvotes uid (reports.map (·.rid)) ups) reports).map (·.report)
        = reports ∧
      (enrich (upvoteAgg (reports.map (·.rid)) ups)
          (commentAgg (reports.map (·.rid)) cms)
          (myUpvotes uid (reports.map (·.rid)) ups) reports).map (·.upvoteCount)
        = reports.map (fun r => ups.countP (fun u => u.report == r.rid)) ∧
      (enrich (upvoteAgg (reports.map (·.rid)) ups)
          (commentAgg (reports.map (·.rid)) cms)
          (myUpvotes uid (reports.map (·.rid)) ups) reports).map (·.commentCount)
        = reports.map (fun r => cms.countP (fun c => c.report == r.rid)) ∧
      (enrich (upvoteAgg (reports.map (·.rid)) ups)
          (commentAgg (reports.map (·.rid)) cms)
          (myUpvotes uid (reports.map (·.rid)) ups) reports).map (·.hasUpvoted)
        = reports.map (fun r => ups.any (fun u => u.user == uid && u.report == r.rid)) := by
  intro reports ups cms uid
  refine ⟨?_, ?_, ?_, ?_⟩
  · rw [enrich, List.map_map]
    exact List.map_id reports
  · rw [enrich, List.map_map]
    refine List.map_congr_left ?_
    intro r hr
    have hk : r.rid ∈ reports.map (·.rid) := List.mem_map_of_mem _ hr
    show lookupCount (upvoteAgg (reports.map (·.rid)) ups) r.rid
      = ups.countP (fun u => u.report == r.rid)
    rw [upvoteAgg, lookupCount_grouped]
    exact count_matched_eq_countP (·.report) (reports.map (·.rid)) r.rid hk ups
  · rw [enrich, List.map_map]
    refine List.map_congr_left ?_
    intro r hr
    have hk : r.rid ∈ reports.map (·.rid) := List.mem_map_of_mem _ hr
    show lookupCount (commentAgg (reports.map (·.rid)) cms) r.rid
      = cms.countP (fun c => c.report == r.rid)
    rw [commentAgg, lookupCount_grouped]
    exact count_matched_eq_countP (·.report) (reports.map (·.rid)) r.rid hk cms
  · rw [enrich, List.map_map]
    refine List.map_congr_left ?_
    intro r hr
    have hk : r.rid ∈ reports.map (·.rid) := List.mem_map_of_mem _ hr
    exact myUpvotes_contains uid (reports.map (·.rid)) ups r.rid hk

end MobileAppz
